import Mathlib

/-!
Verification of `mne/datasets/_fsaverage/base.py` (the fsaverage dataset
fetcher of MNE-Python): the path resolver (`_get_create_subjects_dir`,
`_set_montage_coreg_path`) and the top-level orchestrator
(`fetch_fsaverage`), together with the manifest synchronizer
(`_manifest_check_download`, which lives in `mne/datasets/utils.py` and is
modelled from the specification, since only its caller is part of these
sources).

The embedding is a shallow, executable one.  The ambient process state
(current working directory, persisted user configuration, filesystem,
remote archives reachable over the network) is an explicit `World` record
threaded through every operation.  Paths are plain strings; byte contents
are lists of naturals; the content-hash primitive is an explicit function
parameter (it is an external primitive, `URL to bytes` and
`bytes to digest`, per the interface section of the specification).
-/

/-- Byte contents of a file, as abstract bytes. -/
abbrev Bytes := List Nat

/-- A downloadable archive: its raw bytes (hashed for verification) together
with its extracted layout, a finite map from relative member path to member
contents. -/
structure Archive where
  bytes : Bytes
  entries : List (String × Bytes)
deriving Repr, DecidableEq

/-- The ambient process state: current working directory, the
environment-variable-driven base data directory (the value `_get_path`
resolves), the persisted user configuration (a key-value store), the
directories and regular files of the local filesystem, the bundled manifest
files (path to list of lines), the remote archives reachable by URL, and a
counter of network downloads performed. -/
structure World where
  cwd : String
  baseDataDir : String
  config : List (String × String)
  dirs : List String
  files : List (String × Bytes)
  manifests : List (String × List String)
  remote : List (String × Archive)
  networkCalls : Nat
deriving Repr, DecidableEq

/-- First-match lookup in an association list (string keys). -/
def lookupKV {α : Type} (l : List (String × α)) (k : String) : Option α :=
  (l.find? (fun kv => kv.1 == k)).map (fun kv => kv.2)

/-- Whether a path is absolute, that is, begins with the separator
(mirrors `s.startsWith "/"`; implemented on the character list so that it
evaluates by plain kernel reduction). -/
def isAbsPath (p : String) : Bool :=
  match p.data with
  | [] => false
  | c :: _ => c == '/'

/-- Whether a path ends with the separator (mirrors `s.endsWith "/"`). -/
def endsWithSep (p : String) : Bool :=
  match p.data.getLast? with
  | none => false
  | some c => c == '/'

/-- One step of splitting a character list at the separator. -/
def splitSlashStep (c : Char) (acc : List (List Char)) : List (List Char) :=
  if c == '/' then [] :: acc
  else
    match acc with
    | [] => [[c]]
    | g :: rest => (c :: g) :: rest

/-- The nonempty components of a path (mirrors splitting on `"/"` and
discarding empty components): `splitParts "/a/b" = ["a", "b"]`. -/
def splitParts (p : String) : List String :=
  ((p.data.foldr splitSlashStep []).filter (fun g => !g.isEmpty)).map String.mk

/-- Model of `os.path.join a b` for the cases exercised here: an absolute second
component wins; otherwise the components are joined with a single
separator.  (Path normalization is not modelled.) -/
def joinPath (a b : String) : String :=
  if isAbsPath b then b
  else if a = "" then b
  else if endsWithSep a then a ++ b
  else a ++ "/" ++ b

/-- Model of `os.path.abspath p` relative to the working directory `cwd`:
an absolute path is returned unchanged, a relative one is joined onto
`cwd`.  (The `normpath` step of the real primitive is not modelled; the
paths exercised here contain no `.` or `..` components.) -/
def abspath (cwd p : String) : String :=
  if isAbsPath p then p else joinPath cwd p

/-- The proper ancestors and the path itself, built from successive
components: `buildPrefixes "" [a, b] = [a, a/b]`. -/
def buildPrefixes (root : String) : List String → List String
  | [] => []
  | x :: rest =>
    let cur :=
      if root = "" then x
      else if root = "/" then "/" ++ x
      else root ++ "/" ++ x
    cur :: buildPrefixes cur rest

/-- Every prefix directory of a path, innermost last:
`pathAncestors "/a/b" = ["/a", "/a/b"]`. -/
def pathAncestors (p : String) : List String :=
  buildPrefixes (if isAbsPath p then "/" else "") (splitParts p)

/-- Model of `os.makedirs` with existing directories tolerated: the directory and all its parents
come to exist; nothing else of the world changes. -/
def makedirs (w : World) (p : String) : World :=
  { w with dirs := p :: pathAncestors p ++ w.dirs }

/-- Model of `mne.utils.set_config key value`: persist one configuration entry,
replacing any previous binding of the key. -/
def set_config (w : World) (key value : String) : World :=
  { w with config := (key, value) :: w.config.filter (fun kv => kv.1 != key) }

/-- Modelled from the spec: `mne.utils.get_subjects_dir subjects_dir
with errors suppressed` is the existing-configuration lookup of the
subjects directory — it returns the explicit argument when one is given,
and otherwise fails silently to `none` (rather than raising) when the
persisted `SUBJECTS_DIR` configuration entry is unset. -/
def get_subjects_dir (w : World) (subjects_dir : Option String) : Option String :=
  match subjects_dir with
  | some d => some d
  | none => lookupKV w.config "SUBJECTS_DIR"

/-- Modelled from the spec: `mne.datasets.utils._get_path None MNE_DATA ...`
resolves the environment-variable-driven base data directory (default
`~/mne_data`); here it is simply the `baseDataDir` field of the world. -/
def _get_path (w : World) : String :=
  w.baseDataDir

/-- Embedding of `_get_create_subjects_dir subjects_dir` (base.py lines 97-104):
resolve via `get_subjects_dir` and, when still unresolved, derive the
default `baseDataDir/MNE-fsaverage-data` and create it (with parents). -/
def _get_create_subjects_dir (w : World) (subjects_dir : Option String) :
    World × String :=
  match get_subjects_dir w subjects_dir with
  | some sd => (w, sd)
  | none =>
    let sd := joinPath (_get_path w) "MNE-fsaverage-data"
    (makedirs w sd, sd)

/-- The `ValueError` message of `_set_montage_coreg_path` (base.py lines
142-144), with the two conflicting paths interpolated.  (The `%r`
formatting of the original quotes each path; the quoting is omitted here,
which does not affect which paths the message names.) -/
def conflictMsg (old new : String) : String :=
  "The subjects dir is already set to " ++ old ++
    ", which does not match the provided subjects_dir=" ++ new

/-- Embedding of `_set_montage_coreg_path subjects_dir` (base.py lines 107-146):
resolve (and possibly create) the subjects directory, re-read the
currently persisted value, raise when a persisted value exists and differs
from the resolved one, and otherwise persist the resolved value and
return it. -/
def _set_montage_coreg_path (w : World) (subjects_dir : Option String) :
    World × Except String String :=
  let r := _get_create_subjects_dir w subjects_dir
  let w1 := r.1
  let sd := r.2
  match get_subjects_dir w1 none with
  | some old =>
    if old ≠ sd then
      (w1, Except.error (conflictMsg old sd))
    else
      (set_config w1 "SUBJECTS_DIR" sd, Except.ok sd)
  | none => (set_config w1 "SUBJECTS_DIR" sd, Except.ok sd)

/-- Modelled from the spec: `mne.datasets.utils._manifest_check_download`
(not under these sources; only its caller is).  Per the specification of
the manifest synchronizer: read the manifest (a list of relative paths);
check each entry for existence under the destination; if none is missing,
skip entirely with no network access; otherwise download the archive from
the URL (one network call), verify its content hash against the expected
value, fail fast with no extraction on a mismatch, and finally extract
exactly the manifest entries that were missing, never touching existing
files.  A missing manifest file or an unreachable URL is a fatal error
(transport/filesystem failures propagate). -/
def _manifest_check_download (hashFn : Bytes → String) (w : World)
    (destination manifest_path url hash_ : String) : World × Option String :=
  match lookupKV w.manifests manifest_path with
  | none => (w, some ("could not read manifest " ++ manifest_path))
  | some names =>
    let missing := names.filter
      (fun n => (lookupKV w.files (joinPath destination n)).isNone)
    if missing.isEmpty then (w, none)
    else
      let w1 := { w with networkCalls := w.networkCalls + 1 }
      match lookupKV w.remote url with
      | none => (w1, some ("download failed for " ++ url))
      | some ar =>
        if hashFn ar.bytes = hash_ then
          let extracted := missing.filterMap (fun n =>
            (lookupKV ar.entries n).map (fun c => (joinPath destination n, c)))
          ({ w1 with files := extracted ++ w1.files }, none)
        else
          (w1, some ("hash mismatch for downloaded file " ++ url))

/-- One archive descriptor of the synchronizer: URL, expected content hash,
manifest path, destination directory. -/
structure Descriptor where
  url : String
  hash_ : String
  manifest : String
  destination : String
deriving Repr, DecidableEq

/-- The constant `FSAVERAGE_MANIFEST_PATH = op.dirname(__file__)` of base.py line 11. -/
def FSAVERAGE_MANIFEST_PATH : String := "mne/datasets/_fsaverage"

/-- The `root.zip` descriptor of `fetch_fsaverage` (base.py lines 74-79),
given the absolutized subjects directory: general subject files, destined
for the subjects directory itself. -/
def rootDescriptor (subjects_dir : String) : Descriptor :=
  { url := "https://osf.io/3bxqt/download?revision=2"
  , hash_ := "5133fe92b7b8f03ae19219d5f46e4177"
  , manifest := joinPath FSAVERAGE_MANIFEST_PATH "root.txt"
  , destination := subjects_dir }

/-- The `bem.zip` descriptor of `fetch_fsaverage` (base.py lines 80-85),
given the absolutized subjects directory: head-model files, destined for
the `fsaverage` subdirectory. -/
def bemDescriptor (subjects_dir : String) : Descriptor :=
  { url := "https://osf.io/7ve8g/download?revision=2"
  , hash_ := "608c438af6a15a19b66232323088b32d"
  , manifest := joinPath FSAVERAGE_MANIFEST_PATH "bem.txt"
  , destination := joinPath subjects_dir "fsaverage" }

/-- Run the synchronizer on one descriptor. -/
def runDescriptor (hashFn : Bytes → String) (w : World) (d : Descriptor) :
    World × Option String :=
  _manifest_check_download hashFn w d.destination d.manifest d.url d.hash_

/-- Run the synchronizer on a list of descriptors in order, stopping at
the first failure (a raised exception aborts the enclosing `for` loop). -/
def runDescriptors (hashFn : Bytes → String) (w : World) :
    List Descriptor → World × Option String
  | [] => (w, none)
  | d :: rest =>
    match runDescriptor hashFn w d with
    | (w1, some e) => (w1, some e)
    | (w1, none) => runDescriptors hashFn w1 rest

/-- The tail of `fetch_fsaverage`: a raised exception inside the `for`
loop propagates to the caller, and otherwise `fs_dir` is returned. -/
def wrapSync (fs_dir : String) (p : World × Option String) :
    World × Except String String :=
  match p with
  | (w3, some e) => (w3, Except.error e)
  | (w3, none) => (w3, Except.ok fs_dir)

/-- Embedding of `fetch_fsaverage subjects_dir` (base.py lines 15-94): resolve and
persist the subjects directory via `_set_montage_coreg_path`, absolutize
it, create the `fsaverage` subdirectory, run the manifest synchronizer on
the `root.zip` and `bem.zip` descriptors, and return the `fsaverage`
directory. -/
def fetch_fsaverage (hashFn : Bytes → String) (w : World)
    (subjects_dir : Option String) : World × Except String String :=
  match _set_montage_coreg_path w subjects_dir with
  | (w1, Except.error e) => (w1, Except.error e)
  | (w1, Except.ok sd) =>
    let sdAbs := abspath w1.cwd sd
    let fs_dir := joinPath sdAbs "fsaverage"
    let w2 := makedirs w1 fs_dir
    wrapSync fs_dir
      (runDescriptors hashFn w2
        [ { url := "https://osf.io/3bxqt/download?revision=2"
          , hash_ := "5133fe92b7b8f03ae19219d5f46e4177"
          , manifest := joinPath FSAVERAGE_MANIFEST_PATH "root.txt"
          , destination := sdAbs }
        , { url := "https://osf.io/7ve8g/download?revision=2"
          , hash_ := "608c438af6a15a19b66232323088b32d"
          , manifest := joinPath FSAVERAGE_MANIFEST_PATH "bem.txt"
          , destination := joinPath sdAbs "fsaverage" } ])

/-! ## Helper lemmas about the association-list lookup -/

theorem lookupKV_append {α : Type} (l₁ l₂ : List (String × α)) (k : String) :
    lookupKV (l₁ ++ l₂) k = (lookupKV l₁ k).or (lookupKV l₂ k) := by
  unfold lookupKV
  rw [List.find?_append]
  cases l₁.find? (fun kv => kv.1 == k) <;> simp [Option.or]

theorem lookupKV_mem {α : Type} {l : List (String × α)} {k : String} {v : α}
    (h : lookupKV l k = some v) : (k, v) ∈ l := by
  unfold lookupKV at h
  cases hf : l.find? (fun kv => kv.1 == k) with
  | none => rw [hf] at h; simp at h
  | some kv =>
    rw [hf] at h
    simp only [Option.map_some'] at h
    have hk : kv.1 = k := by
      have := List.find?_some hf
      simpa using this
    have hm := List.mem_of_find?_eq_some hf
    have hkv : kv = (k, v) := by
      cases kv
      simp_all
    rwa [hkv] at hm

theorem lookupKV_isSome_of_mem {α : Type} {l : List (String × α)} {k : String} {v : α}
    (h : (k, v) ∈ l) : (lookupKV l k).isSome := by
  unfold lookupKV
  rw [Option.isSome_map']
  rw [List.find?_isSome]
  exact ⟨(k, v), h, by simp⟩

theorem lookupKV_set_config_self (w : World) (k v : String) :
    lookupKV (set_config w k v).config k = some v := by
  simp [set_config, lookupKV, List.find?_cons]

/-! ## Frame lemmas for the state-changing primitives -/

theorem makedirs_config (w : World) (p : String) : (makedirs w p).config = w.config := rfl

theorem makedirs_cwd (w : World) (p : String) : (makedirs w p).cwd = w.cwd := rfl

theorem makedirs_files (w : World) (p : String) : (makedirs w p).files = w.files := rfl

theorem set_config_cwd (w : World) (k v : String) : (set_config w k v).cwd = w.cwd := rfl

theorem set_config_dirs (w : World) (k v : String) : (set_config w k v).dirs = w.dirs := rfl

theorem gcsd_config (w : World) (a : Option String) :
    ((_get_create_subjects_dir w a).1).config = w.config := by
  rcases hg : get_subjects_dir w a with _ | sd <;>
    simp [_get_create_subjects_dir, hg, makedirs]

theorem gcsd_cwd (w : World) (a : Option String) :
    ((_get_create_subjects_dir w a).1).cwd = w.cwd := by
  rcases hg : get_subjects_dir w a with _ | sd <;>
    simp [_get_create_subjects_dir, hg, makedirs]

theorem smcp_cwd (w : World) (a : Option String) :
    ((_set_montage_coreg_path w a).1).cwd = w.cwd := by
  unfold _set_montage_coreg_path
  rcases ho : get_subjects_dir (_get_create_subjects_dir w a).1 none with _ | old
  · simp [ho, set_config_cwd, gcsd_cwd]
  · by_cases hne : old ≠ (_get_create_subjects_dir w a).2 <;>
      simp [ho, hne, set_config_cwd, gcsd_cwd]

/-! ## Frame and unfolding lemmas for the manifest synchronizer -/

theorem mcd_config (hashFn : Bytes → String) (w : World) (d m u h_ : String) :
    ((_manifest_check_download hashFn w d m u h_).1).config = w.config := by
  unfold _manifest_check_download
  rcases lookupKV w.manifests m with _ | names
  · rfl
  · dsimp only
    split
    · rfl
    · rcases lookupKV w.remote u with _ | ar
      · rfl
      · dsimp only
        split <;> rfl

theorem mcd_dirs (hashFn : Bytes → String) (w : World) (d m u h_ : String) :
    ((_manifest_check_download hashFn w d m u h_).1).dirs = w.dirs := by
  unfold _manifest_check_download
  rcases lookupKV w.manifests m with _ | names
  · rfl
  · dsimp only
    split
    · rfl
    · rcases lookupKV w.remote u with _ | ar
      · rfl
      · dsimp only
        split <;> rfl

theorem mcd_cwd (hashFn : Bytes → String) (w : World) (d m u h_ : String) :
    ((_manifest_check_download hashFn w d m u h_).1).cwd = w.cwd := by
  unfold _manifest_check_download
  rcases lookupKV w.manifests m with _ | names
  · rfl
  · dsimp only
    split
    · rfl
    · rcases lookupKV w.remote u with _ | ar
      · rfl
      · dsimp only
        split <;> rfl

theorem mcd_manifests (hashFn : Bytes → String) (w : World) (d m u h_ : String) :
    ((_manifest_check_download hashFn w d m u h_).1).manifests = w.manifests := by
  unfold _manifest_check_download
  rcases lookupKV w.manifests m with _ | names
  · rfl
  · dsimp only
    split
    · rfl
    · rcases lookupKV w.remote u with _ | ar
      · rfl
      · dsimp only
        split <;> rfl

theorem mcd_remote (hashFn : Bytes → String) (w : World) (d m u h_ : String) :
    ((_manifest_check_download hashFn w d m u h_).1).remote = w.remote := by
  unfold _manifest_check_download
  rcases lookupKV w.manifests m with _ | names
  · rfl
  · dsimp only
    split
    · rfl
    · rcases lookupKV w.remote u with _ | ar
      · rfl
      · dsimp only
        split <;> rfl

/-- When every manifest entry is already present under the destination, the
synchronizer returns the world entirely unchanged, with no error. -/
theorem mcd_skip (hashFn : Bytes → String) (w : World) (d m u h_ : String)
    (names : List String) (hm : lookupKV w.manifests m = some names)
    (hall : ∀ n ∈ names, (lookupKV w.files (joinPath d n)).isSome) :
    _manifest_check_download hashFn w d m u h_ = (w, none) := by
  unfold _manifest_check_download
  rw [hm]
  dsimp only
  have hnil :
      names.filter (fun n => (lookupKV w.files (joinPath d n)).isNone) = [] := by
    rw [List.filter_eq_nil_iff]
    intro n hn
    have h := hall n hn
    rw [Option.isSome_iff_exists] at h
    rcases h with ⟨a, ha⟩
    simp [Option.isNone_iff_eq_none, ha]
  rw [hnil]
  rfl

/-- Every file the extraction step would write is at a path that was missing
from the filesystem before the run. -/
theorem lookupKV_extracted_eq_none (w : World) (d : String) (names : List String)
    (ar : Archive) (p : String) (c : Bytes)
    (h : lookupKV
        ((names.filter (fun n => (lookupKV w.files (joinPath d n)).isNone)).filterMap
          (fun n => (lookupKV ar.entries n).map (fun cc => (joinPath d n, cc)))) p =
        some c) :
    lookupKV w.files p = none := by
  have hmem := lookupKV_mem h
  rw [List.mem_filterMap] at hmem
  rcases hmem with ⟨n, hn, hf⟩
  rw [List.mem_filter] at hn
  rcases hn with ⟨-, hmiss⟩
  rcases ho : lookupKV ar.entries n with _ | cc
  · rw [ho] at hf
    simp at hf
  · rw [ho] at hf
    simp only [Option.map_some', Option.some.injEq, Prod.mk.injEq] at hf
    rw [← hf.1]
    simpa [Option.isNone_iff_eq_none] using hmiss

/-- Characterization of a successful synchronizer run: every previously
present file keeps its exact contents, and (provided the remote archive
really contains every manifest entry, as the external-interface section of
the specification guarantees) every manifest entry exists afterwards. -/
theorem mcd_success_files (hashFn : Bytes → String) (w : World) (d m u h_ : String)
    (names : List String) (w' : World)
    (hm : lookupKV w.manifests m = some names)
    (hrun : _manifest_check_download hashFn w d m u h_ = (w', none)) :
    (∀ p c, lookupKV w.files p = some c → lookupKV w'.files p = some c) ∧
    ((∀ ar, lookupKV w.remote u = some ar →
        ∀ n ∈ names, (lookupKV ar.entries n).isSome) →
      ∀ n ∈ names, (lookupKV w'.files (joinPath d n)).isSome) := by
  unfold _manifest_check_download at hrun
  rw [hm] at hrun
  dsimp only at hrun
  split at hrun
  · -- skip branch: the world is unchanged
    rename_i hnil
    have hw' : w' = w := (congrArg Prod.fst hrun).symm
    subst hw'
    rw [List.isEmpty_iff, List.filter_eq_nil_iff] at hnil
    constructor
    · intro p c hc
      exact hc
    · intro _ n hn
      have := hnil n hn
      simpa [Option.isNone_iff_eq_none, Option.ne_none_iff_isSome] using this
  · rename_i hnil
    split at hrun
    · -- transport failure: contradicts success
      have := congrArg Prod.snd hrun
      simp at this
    · rename_i ar hr
      split at hrun
      · -- hash verified; the extraction happened
        rename_i hh
        have hw' : w' =
            { w with
              files :=
                (names.filter
                    (fun n => (lookupKV w.files (joinPath d n)).isNone)).filterMap
                  (fun n =>
                    (lookupKV ar.entries n).map (fun cc => (joinPath d n, cc))) ++
                  w.files
              networkCalls := w.networkCalls + 1 } := (congrArg Prod.fst hrun).symm
        subst hw'
        constructor
        · intro p c hc
          simp only [lookupKV_append]
          rcases he : lookupKV
              ((names.filter (fun n => (lookupKV w.files (joinPath d n)).isNone)).filterMap
                (fun n => (lookupKV ar.entries n).map (fun cc => (joinPath d n, cc)))) p
              with _ | c'
          · simpa [Option.or, he] using hc
          · exact absurd (lookupKV_extracted_eq_none w d names ar p c' he)
              (by simp [hc])
        · intro hcomp n hn
          simp only [lookupKV_append, Option.isSome_or]
          rcases hp : lookupKV w.files (joinPath d n) with _ | c
          · -- the entry was missing: the archive supplies it
            have har := hcomp ar hr n hn
            rw [Option.isSome_iff_exists] at har
            rcases har with ⟨cc, hcc⟩
            have hmemx : (joinPath d n, cc) ∈
                (names.filter
                  (fun n => (lookupKV w.files (joinPath d n)).isNone)).filterMap
                  (fun n => (lookupKV ar.entries n).map (fun cc => (joinPath d n, cc))) := by
              rw [List.mem_filterMap]
              exact ⟨n, by
                rw [List.mem_filter]
                exact ⟨hn, by simp [Option.isNone_iff_eq_none, hp]⟩,
                by simp [hcc]⟩
            have := lookupKV_isSome_of_mem hmemx
            simp [this]
          · -- the entry was already present: preserved on the left or right
            simp [hp]
      · -- hash mismatch: contradicts success
        have := congrArg Prod.snd hrun
        simp at this

/-- When at least one manifest entry is missing, the download happens, and a
content-hash mismatch stops the run before any extraction: the resulting
world differs from the input world only in the network-call counter, and an
error is reported. -/
theorem mcd_hash_mismatch_eq (hashFn : Bytes → String) (w : World)
    (d m u h_ : String) (names : List String) (ar : Archive)
    (hm : lookupKV w.manifests m = some names)
    (hmiss : ∃ n ∈ names, lookupKV w.files (joinPath d n) = none)
    (hr : lookupKV w.remote u = some ar)
    (hbad : hashFn ar.bytes ≠ h_) :
    _manifest_check_download hashFn w d m u h_ =
      ({ w with networkCalls := w.networkCalls + 1 },
        some ("hash mismatch for downloaded file " ++ u)) := by
  unfold _manifest_check_download
  rw [hm]
  dsimp only
  have hne :
      (names.filter (fun n => (lookupKV w.files (joinPath d n)).isNone)).isEmpty =
        false := by
    rcases hmiss with ⟨n, hn, hnone⟩
    rw [List.isEmpty_eq_false]
    refine List.ne_nil_of_mem (a := n) ?_
    rw [List.mem_filter]
    exact ⟨hn, by simp [Option.isNone_iff_eq_none, hnone]⟩
  rw [hne]
  rw [if_neg (by simp)]
  rw [hr]
  dsimp only
  rw [if_neg hbad]

/-- A successful synchronizer run leaves every manifest entry present,
assuming the remote archive contains every manifest entry (needed only when
the run actually downloaded). -/
theorem mcd_success_all_present (hashFn : Bytes → String) (w : World)
    (d m u h_ : String) (names : List String) (w' : World)
    (hm : lookupKV w.manifests m = some names)
    (hcomp : ∀ ar, lookupKV w.remote u = some ar →
      ∀ n ∈ names, (lookupKV ar.entries n).isSome)
    (hrun : _manifest_check_download hashFn w d m u h_ = (w', none)) :
    ∀ n ∈ names, (lookupKV w'.files (joinPath d n)).isSome :=
  (mcd_success_files hashFn w d m u h_ names w' hm hrun).2 hcomp

/-- A string of length 0 is the empty string. -/
theorem string_eq_empty_of_length_eq_zero {s : String} (h : s.length = 0) :
    s = "" := by
  cases s with
  | mk data =>
    rw [String.mk_length] at h
    rw [List.length_eq_zero] at h
    rw [h]

/-! ## Concrete worlds used by the witness theorems -/

/-- A concrete hash function for the witnesses: only the bytes `[1, 2, 3]`
hash to `"good"`. -/
def exHash : Bytes → String :=
  fun b => if b = [1, 2, 3] then "good" else "bad"

/-- A concrete remote archive providing the two manifest entries. -/
def exArchive : Archive :=
  { bytes := [1, 2, 3], entries := [("f1", [10]), ("f2", [20])] }

/-- A world with a two-entry manifest of which one entry is already on
disk, and the archive reachable remotely. -/
def exW : World :=
  { cwd := "/work", baseDataDir := "/home/u/mne_data", config := []
  , dirs := [], files := [("/dest/f1", [10])]
  , manifests := [("m.txt", ["f1", "f2"])]
  , remote := [("https://r/a.zip", exArchive)], networkCalls := 0 }

/-- A variant of `exW` in which both manifest entries are on disk. -/
def exWFull : World :=
  { exW with files := [("/dest/f1", [10]), ("/dest/f2", [20])] }

/-- The world reached by a successful synchronizer run on `exW`. -/
def exW2 : World :=
  { exW with
    files := [("/dest/f2", [20]), ("/dest/f1", [10])],
    networkCalls := 1 }

/-- A world whose configuration already persists `SUBJECTS_DIR = /a`. -/
def exConfW : World :=
  { cwd := "/work", baseDataDir := "/home/u/mne_data"
  , config := [("SUBJECTS_DIR", "/a")]
  , dirs := [], files := [], manifests := [], remote := [], networkCalls := 0 }

/-- A world with no persisted configuration at all. -/
def exEmptyW : World :=
  { cwd := "/work", baseDataDir := "/home/u/mne_data", config := []
  , dirs := [], files := [], manifests := [], remote := [], networkCalls := 0 }

/-! ## Claim theorems -/

/-- C4: for every manifest and destination, if every file listed in the
manifest already exists under the destination then the synchronizer for
that descriptor is skipped entirely without network access: the world is
returned unchanged (in particular the network-call counter is unchanged)
and no error is reported. -/
theorem manifest_all_present_skips_network (hashFn : Bytes → String)
    (w : World) (d m u h_ : String) (names : List String)
    (hm : lookupKV w.manifests m = some names)
    (hall : ∀ n ∈ names, (lookupKV w.files (joinPath d n)).isSome) :
    _manifest_check_download hashFn w d m u h_ = (w, none) ∧
    ((_manifest_check_download hashFn w d m u h_).1).networkCalls =
      w.networkCalls := by
  have h := mcd_skip hashFn w d m u h_ names hm hall
  exact ⟨h, by rw [h]⟩

/-- Witness for C4 on the concrete world `exWFull`, in which both manifest
entries are already on disk. -/
theorem manifest_all_present_skips_network_witness :
    _manifest_check_download exHash exWFull "/dest" "m.txt" "https://r/a.zip"
        "good" = (exWFull, none) ∧
    ((_manifest_check_download exHash exWFull "/dest" "m.txt" "https://r/a.zip"
        "good").1).networkCalls = exWFull.networkCalls :=
  manifest_all_present_skips_network exHash exWFull "/dest" "m.txt"
    "https://r/a.zip" "good" ["f1", "f2"] (by decide) (by decide)

/-- C3: for every archive whose downloaded bytes hash to a value different
from the expected hash, the synchronizer performs no extraction — the
files (and directories) of the world are unchanged — and reports failure
to the caller. -/
theorem manifest_hash_mismatch_no_extraction (hashFn : Bytes → String)
    (w : World) (d m u h_ : String) (names : List String) (ar : Archive)
    (hm : lookupKV w.manifests m = some names)
    (hmiss : ∃ n ∈ names, lookupKV w.files (joinPath d n) = none)
    (hr : lookupKV w.remote u = some ar)
    (hbad : hashFn ar.bytes ≠ h_) :
    ((_manifest_check_download hashFn w d m u h_).1).files = w.files ∧
    ((_manifest_check_download hashFn w d m u h_).1).dirs = w.dirs ∧
    ((_manifest_check_download hashFn w d m u h_).2).isSome := by
  rw [mcd_hash_mismatch_eq hashFn w d m u h_ names ar hm hmiss hr hbad]
  exact ⟨rfl, rfl, rfl⟩

/-- Witness for C3 on the concrete world `exW`, against an expected hash
that the archive bytes do not produce. -/
theorem manifest_hash_mismatch_no_extraction_witness :
    ((_manifest_check_download exHash exW "/dest" "m.txt" "https://r/a.zip"
        "expected").1).files = exW.files ∧
    ((_manifest_check_download exHash exW "/dest" "m.txt" "https://r/a.zip"
        "expected").1).dirs = exW.dirs ∧
    ((_manifest_check_download exHash exW "/dest" "m.txt" "https://r/a.zip"
        "expected").2).isSome :=
  manifest_hash_mismatch_no_extraction exHash exW "/dest" "m.txt"
    "https://r/a.zip" "expected" ["f1", "f2"] exArchive (by decide)
    ⟨"f2", by decide, by decide⟩ (by decide) (by decide)

/-- C2: after a successful synchronizer run on a destination missing at
least one manifest entry, every manifest entry exists under the
destination, and every file already present before the run (listed in the
manifest or not) still has byte-identical contents — no existing file is
overwritten.  (The run can only complete the manifest when the verified
archive really provides every entry, which the external-interface contract
of the remote archive guarantees; it enters as the hypothesis `hcomp`.) -/
theorem manifest_success_completes_without_overwrite (hashFn : Bytes → String)
    (w : World) (d m u h_ : String) (names : List String) (w' : World)
    (hm : lookupKV w.manifests m = some names)
    (_hmiss : ∃ n ∈ names, lookupKV w.files (joinPath d n) = none)
    (hcomp : ∀ ar, lookupKV w.remote u = some ar →
      ∀ n ∈ names, (lookupKV ar.entries n).isSome)
    (hrun : _manifest_check_download hashFn w d m u h_ = (w', none)) :
    (∀ n ∈ names, (lookupKV w'.files (joinPath d n)).isSome) ∧
    (∀ p c, lookupKV w.files p = some c → lookupKV w'.files p = some c) := by
  obtain ⟨hpres, hall⟩ := mcd_success_files hashFn w d m u h_ names w' hm hrun
  exact ⟨hall hcomp, hpres⟩

/-- Witness for C2 on the concrete world `exW` (entry `f2` missing): the
run reaches `exW2`, both entries exist there, and the pre-existing file
kept its contents. -/
theorem manifest_success_completes_without_overwrite_witness :
    (∀ n ∈ ["f1", "f2"], (lookupKV exW2.files (joinPath "/dest" n)).isSome) ∧
    (∀ p c, lookupKV exW.files p = some c → lookupKV exW2.files p = some c) :=
  manifest_success_completes_without_overwrite exHash exW "/dest" "m.txt"
    "https://r/a.zip" "good" ["f1", "f2"] exW2 (by decide)
    ⟨"f2", by decide, by decide⟩
    (by
      intro ar har n hn
      have : ar = exArchive := by
        have := lookupKV_mem har
        simp [exW] at this
        simp [this]
      rw [this]
      fin_cases hn <;> decide)
    (by decide)

/-- C6: running the synchronizer twice in a row against the same
destination is idempotent — after a successful first run, the second run
returns its input world entirely unchanged (so it performs no network
call and changes no file) and reports no error. -/
theorem manifest_sync_idempotent (hashFn : Bytes → String) (w w' : World)
    (d m u h_ : String) (names : List String)
    (hm : lookupKV w.manifests m = some names)
    (hcomp : ∀ ar, lookupKV w.remote u = some ar →
      ∀ n ∈ names, (lookupKV ar.entries n).isSome)
    (hrun : _manifest_check_download hashFn w d m u h_ = (w', none)) :
    _manifest_check_download hashFn w' d m u h_ = (w', none) := by
  have hmeq : w'.manifests = w.manifests := by
    have h2 := mcd_manifests hashFn w d m u h_
    rw [hrun] at h2
    exact h2
  have hm' : lookupKV w'.manifests m = some names := by rw [hmeq, hm]
  have hall := mcd_success_all_present hashFn w d m u h_ names w' hm hcomp hrun
  exact mcd_skip hashFn w' d m u h_ names hm' hall

/-- Witness for C6 on the concrete world `exW`: the successful first run
reaches `exW2`, and the second run leaves `exW2` untouched. -/
theorem manifest_sync_idempotent_witness :
    _manifest_check_download exHash exW2 "/dest" "m.txt" "https://r/a.zip"
      "good" = (exW2, none) :=
  manifest_sync_idempotent exHash exW exW2 "/dest" "m.txt" "https://r/a.zip"
    "good" ["f1", "f2"] (by decide)
    (by
      intro ar har n hn
      have : ar = exArchive := by
        have := lookupKV_mem har
        simp [exW] at this
        simp [this]
      rw [this]
      fin_cases hn <;> decide)
    (by decide)

/-- C1: whenever a persisted `SUBJECTS_DIR` value `p` exists and differs
from the resolved subjects directory, `_set_montage_coreg_path` raises an
error whose message interpolates both `p` and the resolved directory, and
performs no configuration write: the configuration of the resulting world
is exactly the input configuration. -/
theorem smcp_conflict_raises_and_preserves_config (w : World)
    (arg : Option String) (p : String)
    (hp : lookupKV w.config "SUBJECTS_DIR" = some p)
    (hne : p ≠ (_get_create_subjects_dir w arg).2) :
    _set_montage_coreg_path w arg =
      ((_get_create_subjects_dir w arg).1,
        Except.error ("The subjects dir is already set to " ++ p ++
          ", which does not match the provided subjects_dir=" ++
          (_get_create_subjects_dir w arg).2)) ∧
    ((_set_montage_coreg_path w arg).1).config = w.config := by
  have hold : get_subjects_dir (_get_create_subjects_dir w arg).1 none = some p := by
    simp [get_subjects_dir, gcsd_config, hp]
  have h1 : _set_montage_coreg_path w arg =
      ((_get_create_subjects_dir w arg).1,
        Except.error (conflictMsg p (_get_create_subjects_dir w arg).2)) := by
    unfold _set_montage_coreg_path
    dsimp only
    rw [hold]
    dsimp only
    rw [if_pos hne]
  refine ⟨by rw [h1]; rfl, ?_⟩
  rw [h1]
  exact gcsd_config w arg

/-- Witness for C1: persisted `/a` conflicts with an explicit request for
`/b`; the error names both and the configuration is untouched. -/
theorem smcp_conflict_raises_and_preserves_config_witness :
    _set_montage_coreg_path exConfW (some "/b") =
      ((_get_create_subjects_dir exConfW (some "/b")).1,
        Except.error ("The subjects dir is already set to " ++ "/a" ++
          ", which does not match the provided subjects_dir=" ++
          (_get_create_subjects_dir exConfW (some "/b")).2)) ∧
    ((_set_montage_coreg_path exConfW (some "/b")).1).config = exConfW.config :=
  smcp_conflict_raises_and_preserves_config exConfW (some "/b") "/a"
    (by decide) (by decide)

/-- C8: the conflict check of `_set_montage_coreg_path` compares the
persisted and resolved directory strings verbatim: an error is raised if
and only if a persisted value exists and is a different string than the
resolved directory — so two spellings of the same directory (for example
with and without a trailing separator) count as a conflict. -/
theorem smcp_error_iff_raw_string_conflict (w : World) (arg : Option String) :
    (∃ e, (_set_montage_coreg_path w arg).2 = Except.error e) ↔
    (∃ p, lookupKV w.config "SUBJECTS_DIR" = some p ∧
      p ≠ (_get_create_subjects_dir w arg).2) := by
  have hold : get_subjects_dir (_get_create_subjects_dir w arg).1 none =
      lookupKV w.config "SUBJECTS_DIR" := by
    simp [get_subjects_dir, gcsd_config]
  unfold _set_montage_coreg_path
  dsimp only
  rw [hold]
  rcases hp : lookupKV w.config "SUBJECTS_DIR" with _ | p
  · simp
  · by_cases hne : p ≠ (_get_create_subjects_dir w arg).2
    · simp [hne]
    · push_neg at hne
      simp [hne]

/-- C7: when no explicit subjects directory is given and no value is
persisted (the lookup silently returns `none`), the resolver derives the
default as the base data directory joined with `MNE-fsaverage-data`, and
creates that directory together with all its parents. -/
theorem gcsd_derives_and_creates_default (w : World)
    (hnone : lookupKV w.config "SUBJECTS_DIR" = none) :
    (_get_create_subjects_dir w none).2 =
      joinPath w.baseDataDir "MNE-fsaverage-data" ∧
    joinPath w.baseDataDir "MNE-fsaverage-data" ∈
      ((_get_create_subjects_dir w none).1).dirs ∧
    ∀ a ∈ pathAncestors (joinPath w.baseDataDir "MNE-fsaverage-data"),
      a ∈ ((_get_create_subjects_dir w none).1).dirs := by
  have hg : get_subjects_dir w none = none := by
    simp [get_subjects_dir, hnone]
  refine ⟨?_, ?_, ?_⟩
  · simp [_get_create_subjects_dir, hg, _get_path]
  · simp [_get_create_subjects_dir, hg, _get_path, makedirs]
  · intro a ha
    simp [_get_create_subjects_dir, hg, _get_path, makedirs]
    right
    left
    exact ha

/-- Witness for C7 on the empty-configuration world `exEmptyW`. -/
theorem gcsd_derives_and_creates_default_witness :
    (_get_create_subjects_dir exEmptyW none).2 =
      joinPath exEmptyW.baseDataDir "MNE-fsaverage-data" ∧
    joinPath exEmptyW.baseDataDir "MNE-fsaverage-data" ∈
      ((_get_create_subjects_dir exEmptyW none).1).dirs ∧
    ∀ a ∈ pathAncestors (joinPath exEmptyW.baseDataDir "MNE-fsaverage-data"),
      a ∈ ((_get_create_subjects_dir exEmptyW none).1).dirs :=
  gcsd_derives_and_creates_default exEmptyW (by decide)

/-! ## Helper lemmas about the orchestrator -/

theorem wrapSync_fst (f : String) (p : World × Option String) :
    (wrapSync f p).1 = p.1 := by
  rcases p with ⟨w3, _ | e⟩ <;> rfl

theorem wrapSync_ok (f : String) (p : World × Option String) (s : String)
    (h : (wrapSync f p).2 = Except.ok s) : s = f := by
  rcases p with ⟨w3, _ | e⟩
  · dsimp [wrapSync] at h
    injection h
    rename_i hh
    exact hh.symm
  · dsimp [wrapSync] at h
    cases h

theorem runDescriptors_config (hashFn : Bytes → String) (ds : List Descriptor) :
    ∀ w : World, ((runDescriptors hashFn w ds).1).config = w.config := by
  induction ds with
  | nil => intro w; rfl
  | cons d rest ih =>
    intro w
    have hc := mcd_config hashFn w d.destination d.manifest d.url d.hash_
    unfold runDescriptors runDescriptor
    rcases hm : _manifest_check_download hashFn w d.destination d.manifest
        d.url d.hash_ with ⟨w1, e⟩
    rw [hm] at hc
    rcases e with _ | e
    · dsimp only
      rw [ih w1]
      exact hc
    · exact hc

theorem runDescriptors_dirs (hashFn : Bytes → String) (ds : List Descriptor) :
    ∀ w : World, ((runDescriptors hashFn w ds).1).dirs = w.dirs := by
  induction ds with
  | nil => intro w; rfl
  | cons d rest ih =>
    intro w
    have hc := mcd_dirs hashFn w d.destination d.manifest d.url d.hash_
    unfold runDescriptors runDescriptor
    rcases hm : _manifest_check_download hashFn w d.destination d.manifest
        d.url d.hash_ with ⟨w1, e⟩
    rw [hm] at hc
    rcases e with _ | e
    · dsimp only
      rw [ih w1]
      exact hc
    · exact hc

/-- On the success path of `_set_montage_coreg_path`, the resulting world
has the returned subjects directory persisted under `SUBJECTS_DIR`. -/
theorem smcp_ok_config (w : World) (arg : Option String) (w1 : World)
    (sd : String)
    (h : _set_montage_coreg_path w arg = (w1, Except.ok sd)) :
    lookupKV w1.config "SUBJECTS_DIR" = some sd := by
  unfold _set_montage_coreg_path at h
  dsimp only at h
  rcases ho : get_subjects_dir (_get_create_subjects_dir w arg).1 none
      with _ | old
  · rw [ho] at h
    dsimp only at h
    have h1 := congrArg Prod.fst h
    have h2 := congrArg Prod.snd h
    dsimp only at h1 h2
    have hsd : (_get_create_subjects_dir w arg).2 = sd := by
      injection h2
    rw [← h1, hsd, lookupKV_set_config_self]
  · rw [ho] at h
    dsimp only at h
    by_cases hne : old ≠ (_get_create_subjects_dir w arg).2
    · rw [if_pos hne] at h
      have h2 := congrArg Prod.snd h
      dsimp only at h2
      cases h2
    · rw [if_neg hne] at h
      have h1 := congrArg Prod.fst h
      have h2 := congrArg Prod.snd h
      dsimp only at h1 h2
      have hsd : (_get_create_subjects_dir w arg).2 = sd := by
        injection h2
      rw [← h1, hsd, lookupKV_set_config_self]

/-- Shared description of the state after `fetch_fsaverage` whenever the
resolver step succeeded: the resolved directory is persisted, the
`fsaverage` subdirectory exists, and a successful return value is the
`fsaverage` path. -/
theorem fetch_state (hashFn : Bytes → String) (w : World) (arg : Option String)
    (w1 : World) (sd : String)
    (hs : _set_montage_coreg_path w arg = (w1, Except.ok sd)) :
    lookupKV (((fetch_fsaverage hashFn w arg).1).config) "SUBJECTS_DIR" =
      some sd ∧
    joinPath (abspath w.cwd sd) "fsaverage" ∈
      ((fetch_fsaverage hashFn w arg).1).dirs ∧
    ∀ s, (fetch_fsaverage hashFn w arg).2 = Except.ok s →
      s = joinPath (abspath w.cwd sd) "fsaverage" := by
  have hcwd : w1.cwd = w.cwd := by
    have h := smcp_cwd w arg
    rw [hs] at h
    exact h
  have hcfg := smcp_ok_config w arg w1 sd hs
  unfold fetch_fsaverage
  rw [hs]
  dsimp only
  rw [hcwd]
  refine ⟨?_, ?_, ?_⟩
  · rw [wrapSync_fst, runDescriptors_config]
    rw [makedirs_config]
    exact hcfg
  · rw [wrapSync_fst, runDescriptors_dirs]
    simp [makedirs]
  · intro s hok
    exact wrapSync_ok _ _ _ hok

/-- C9: on every call that passes the conflict check (the resolver step
returns `ok`), the `SUBJECTS_DIR` configuration entry is persisted and
the `fsaverage` subdirectory created before the synchronizer runs, so both
side effects are present in the final world for every outcome of the
synchronizer — including a failed download or hash verification. -/
theorem fetch_persists_config_and_dir_before_downloads
    (hashFn : Bytes → String) (w : World) (arg : Option String) (sd : String)
    (hok : (_set_montage_coreg_path w arg).2 = Except.ok sd) :
    lookupKV (((fetch_fsaverage hashFn w arg).1).config) "SUBJECTS_DIR" =
      some sd ∧
    joinPath (abspath w.cwd sd) "fsaverage" ∈
      ((fetch_fsaverage hashFn w arg).1).dirs := by
  have hs : _set_montage_coreg_path w arg =
      ((_set_montage_coreg_path w arg).1, Except.ok sd) := by
    rw [← hok]
  obtain ⟨h1, h2, -⟩ :=
    fetch_state hashFn w arg (_set_montage_coreg_path w arg).1 sd hs
  exact ⟨h1, h2⟩

/-- Witness for C9 on the world `exEmptyW`, whose synchronizer step fails
(the bundled manifests are unreadable there): the configuration entry and
the `fsaverage` directory are nevertheless in place afterwards. -/
theorem fetch_persists_config_and_dir_before_downloads_witness :
    lookupKV (((fetch_fsaverage exHash exEmptyW (some "/subj")).1).config)
      "SUBJECTS_DIR" = some "/subj" ∧
    joinPath (abspath exEmptyW.cwd "/subj") "fsaverage" ∈
      ((fetch_fsaverage exHash exEmptyW (some "/subj")).1).dirs :=
  fetch_persists_config_and_dir_before_downloads exHash exEmptyW
    (some "/subj") "/subj" rfl

/-- C10: for an explicitly given relative `subjects_dir` (on a call that
passes the conflict check), the value persisted into configuration is the
resolved directory exactly as given — not absolutized — while the value
returned on success is the absolutized directory joined with `fsaverage`;
the persisted string differs from that absolutized parent. -/
theorem fetch_persists_raw_value_returns_absolutized
    (hashFn : Bytes → String) (w : World) (d : String)
    (hrel : isAbsPath d = false) (hcwd : w.cwd ≠ "")
    (hconf : lookupKV w.config "SUBJECTS_DIR" = none ∨
      lookupKV w.config "SUBJECTS_DIR" = some d) :
    lookupKV (((fetch_fsaverage hashFn w (some d)).1).config) "SUBJECTS_DIR" =
      some d ∧
    (∀ s, (fetch_fsaverage hashFn w (some d)).2 = Except.ok s →
      s = joinPath (abspath w.cwd d) "fsaverage") ∧
    abspath w.cwd d ≠ d := by
  have hgc : _get_create_subjects_dir w (some d) = (w, d) := by
    simp [_get_create_subjects_dir, get_subjects_dir]
  have hs : _set_montage_coreg_path w (some d) =
      (set_config w "SUBJECTS_DIR" d, Except.ok d) := by
    unfold _set_montage_coreg_path
    rw [hgc]
    dsimp only
    rcases hconf with h | h <;> simp [get_subjects_dir, h]
  obtain ⟨h1, -, h3⟩ :=
    fetch_state hashFn w (some d) (set_config w "SUBJECTS_DIR" d) d hs
  refine ⟨h1, h3, ?_⟩
  intro he
  unfold abspath at he
  rw [hrel] at he
  rw [if_neg (by simp)] at he
  unfold joinPath at he
  rw [hrel] at he
  rw [if_neg (by simp)] at he
  rw [if_neg hcwd] at he
  by_cases hsl : endsWithSep w.cwd = true
  · rw [if_pos hsl] at he
    have hl := congrArg String.length he
    rw [String.length_append] at hl
    have h0 : w.cwd.length = 0 := by omega
    exact hcwd (string_eq_empty_of_length_eq_zero h0)
  · rw [if_neg hsl] at he
    have hl := congrArg String.length he
    rw [String.length_append, String.length_append] at hl
    have hone : ("/" : String).length = 1 := rfl
    rw [hone] at hl
    omega

/-- Witness for C10 with the relative request `subj` from the working
directory `/work`. -/
theorem fetch_persists_raw_value_returns_absolutized_witness :
    lookupKV (((fetch_fsaverage exHash exEmptyW (some "subj")).1).config)
      "SUBJECTS_DIR" = some "subj" ∧
    (∀ s, (fetch_fsaverage exHash exEmptyW (some "subj")).2 = Except.ok s →
      s = joinPath (abspath exEmptyW.cwd "subj") "fsaverage") ∧
    abspath exEmptyW.cwd "subj" ≠ "subj" :=
  fetch_persists_raw_value_returns_absolutized exHash exEmptyW "subj"
    (by decide) (by decide) (Or.inl (by decide))

/-- C5: on every call whose resolver step succeeds with directory `sd`,
`fetch_fsaverage` creates the `fsaverage` subdirectory of the absolutized
`sd` and then equals the synchronizer run over exactly the two fixed
descriptors — `root.zip` with destination the subjects directory itself
and `bem.zip` with destination its `fsaverage` subdirectory — wrapped so
that the success value is the absolute `fsaverage` path. -/
theorem fetch_fsaverage_orchestration (hashFn : Bytes → String) (w : World)
    (arg : Option String) (w1 : World) (sd : String)
    (hs : _set_montage_coreg_path w arg = (w1, Except.ok sd)) :
    fetch_fsaverage hashFn w arg =
      wrapSync (joinPath (abspath w.cwd sd) "fsaverage")
        (runDescriptors hashFn
          (makedirs w1 (joinPath (abspath w.cwd sd) "fsaverage"))
          [rootDescriptor (abspath w.cwd sd), bemDescriptor (abspath w.cwd sd)]) ∧
    (∀ s, (fetch_fsaverage hashFn w arg).2 = Except.ok s →
      s = joinPath (abspath w.cwd sd) "fsaverage") := by
  have hcwd : w1.cwd = w.cwd := by
    have h := smcp_cwd w arg
    rw [hs] at h
    exact h
  constructor
  · unfold fetch_fsaverage
    rw [hs]
    dsimp only
    rw [hcwd]
    rfl
  · exact (fetch_state hashFn w arg w1 sd hs).2.2

/-- Witness for C5 on the world `exEmptyW` with the explicit request
`/subj`. -/
theorem fetch_fsaverage_orchestration_witness :
    fetch_fsaverage exHash exEmptyW (some "/subj") =
      wrapSync (joinPath (abspath exEmptyW.cwd "/subj") "fsaverage")
        (runDescriptors exHash
          (makedirs (set_config exEmptyW "SUBJECTS_DIR" "/subj")
            (joinPath (abspath exEmptyW.cwd "/subj") "fsaverage"))
          [rootDescriptor (abspath exEmptyW.cwd "/subj"),
            bemDescriptor (abspath exEmptyW.cwd "/subj")]) ∧
    (∀ s, (fetch_fsaverage exHash exEmptyW (some "/subj")).2 = Except.ok s →
      s = joinPath (abspath exEmptyW.cwd "/subj") "fsaverage") :=
  fetch_fsaverage_orchestration exHash exEmptyW (some "/subj")
    (set_config exEmptyW "SUBJECTS_DIR" "/subj") "/subj" rfl
